import Mathlib

/-!
Verification development for the rscheme tree-walking Lisp evaluator
(src/rscheme/src/{parser,environment,interpreter}.rs).

Shallow embedding conventions:
* Rust `i32` is modelled as `Int` with two's-complement wrap-around
  (`wrap32`) applied at every arithmetic operation, following the release
  overflow semantics (`% 2^32` with re-centering).  Division is the one
  exception: Rust checks `i32` division overflow in every build profile,
  so `i32::MIN / -1` panics ("attempt to divide with overflow") rather
  than wrapping; the embedding models that case as a host `fault`.
* Rust `f64` is modelled by the exact rational type `Q` below.  Every
  claim under verification touches only values (small integers and exact
  zero tests) on which IEEE-754 double arithmetic is exact, so the
  rational model agrees with the source on all inputs the claims use.
  Transcendental host operations (sin, powf on non-integer exponents, the
  pi/e constants) are not exactly representable; they are modelled by
  stub rationals, clearly marked below, and no claim depends on them.
* A Rust panic (vector index out of bounds, `unwrap` of `None`, usize
  underflow) is modelled by the distinguished outcome `EvalRes.fault`,
  kept apart from the catchable `EvalRes.err` carrying an EvalError
  message.
* Recursion in the interpreter is unbounded in the source, so every
  evaluator function takes a fuel argument; exhausted fuel yields `none`.
  All statements quantify over or instantiate the fuel explicitly.
-/

set_option maxHeartbeats 2000000

namespace RScheme

/-- Two's-complement wrap-around of Rust `i32` arithmetic results. -/
def wrap32 (z : Int) : Int := (z + 2147483648) % 4294967296 - 2147483648

/-- Euclid's algorithm with explicit fuel (so that it reduces in the kernel). -/
def gcdFuel : Nat → Nat → Nat → Nat
  | 0, a, _ => a
  | f+1, a, b => if b = 0 then a else gcdFuel f b (a % b)

/-- Greatest common divisor; the fuel `b+1` always suffices because the second
argument strictly decreases at every step. -/
def natGcd (a b : Nat) : Nat := gcdFuel (b+1) a b

/-- Exact rational model of Rust `f64` (see the header comment): numerator and
denominator, kept in lowest terms with positive denominator by `Q.norm`. -/
structure Q where
  num : Int
  den : Int
deriving DecidableEq, Repr

/-- Normalize a fraction: positive denominator, lowest terms.  A zero
denominator (which no claim reaches; in `f64` it would be an infinity or NaN)
is modelled by the stub value 0. -/
def Q.norm (nn dd : Int) : Q :=
  if dd = 0 then ⟨0, 1⟩
  else
    let s : Int := if dd < 0 then -1 else 1
    let n2 := s * nn
    let d2 := s * dd
    let g : Int := (natGcd n2.natAbs d2.natAbs : Nat)
    ⟨Int.ediv n2 g, Int.ediv d2 g⟩

def i2q (n : Int) : Q := ⟨n, 1⟩

def qzero : Q := ⟨0, 1⟩

def qadd (a b : Q) : Q := Q.norm (a.num * b.den + b.num * a.den) (a.den * b.den)

def qsub (a b : Q) : Q := Q.norm (a.num * b.den - b.num * a.den) (a.den * b.den)

def qmul (a b : Q) : Q := Q.norm (a.num * b.num) (a.den * b.den)

def qdiv (a b : Q) : Q := Q.norm (a.num * b.den) (a.den * b.num)

def qneg (a : Q) : Q := ⟨-a.num, a.den⟩

/-- Numeric order on the rational f64 model (denominators are positive). -/
def qltB (a b : Q) : Bool := decide (a.num * b.den < b.num * a.den)

def qleB (a b : Q) : Bool := decide (a.num * b.den ≤ b.num * a.den)

/-- f64 `==` on finite values is numeric equality; on normalized fractions
this is component equality. -/
def qeqB (a b : Q) : Bool := a.num == b.num && a.den == b.den

def ratPow (x : Q) : Nat → Q
  | 0 => ⟨1, 1⟩
  | n+1 => qmul x (ratPow x n)

def qinv (a : Q) : Q := Q.norm a.den a.num

/-- Model of `f64::powi`: exact integer power.  (`powi` on f64 rounds for
large results and maps `0^-1` to infinity; no claim depends on either.) -/
def powi (x : Q) (y : Int) : Q :=
  if 0 ≤ y then ratPow x y.toNat else qinv (ratPow x (-y).toNat)

/-- Modelled from the spec: `f64::powf` is a transcendental host operation.
It is modelled exactly on integral exponents and by the stub 0 elsewhere;
no claim depends on the non-integral case. -/
def powf (x y : Q) : Q := if y.den = 1 then powi x y.num else ⟨0, 1⟩

/-- Modelled from the spec: the transcendental f64 functions (sin, cos, tan,
asin, acos, atan, exp, log, log10, sqrt) used by the primitive library are
host library calls with no exact rational value; they are modelled by an
uninterpreted stub (constantly 0).  No claim depends on their values. -/
def hostReal (_fname : String) (_q : Q) : Q := ⟨0, 1⟩

/-- Modelled from the spec: the f64 constant `std::f64::consts::PI`. -/
def piQ : Q := ⟨3141592653589793, 1000000000000000⟩

/-- Modelled from the spec: the f64 constant `std::f64::consts::E`. -/
def eQ : Q := ⟨2718281828459045, 1000000000000000⟩

/-- The apostrophe character, as used inside the source's error messages. -/
def apos : String := (Char.ofNat 39).toString

mutual
/-- Parsed syntax tree, from `parser.rs` (`enum Node`). -/
inductive Node where
  | Symbol (s : String)
  | List (ns : List Node)
  | Int (n : Int)
  | Float (q : Q)
  | Complex (re im : Q)
  | Bool (b : Bool)
  | String (s : String)
  | ValueWrapper (v : Value)

/-- Runtime value, from `interpreter.rs` (`enum Value`), including the
`Complex`, `String` and `NodeWrapper` variants required by
`environment.rs` (the `interpreter.rs` snapshot under `src/` predates
them; spec §3 lists all of these variants).  `Function` carries the
registered primitive name; the source also stores the function pointer,
which the embedding recovers by name dispatch (`applyPrim`), equivalent
because `Function` values originate only in the initial environment
table. -/
inductive Value where
  | Int (n : Int)
  | Float (q : Q)
  | Complex (re im : Q)
  | Bool (b : Bool)
  | Symbol (s : String)
  | Literal (s : String)
  | String (s : String)
  | List (vs : List Value)
  | Function (name : String)
  | Lambda (params : List Node) (body : Node)
  | NodeWrapper (n : Node)
  | Void
end

/-- Outcome of one evaluation: an `Ok(Value)`, an `Err(EvalError)` with its
message, or a host-level panic (`fault`: out-of-bounds indexing and the
like, which abort the process rather than returning an error value). -/
inductive EvalRes where
  | ok (v : Value)
  | err (msg : String)
  | fault

/-- Environment, from `environment.rs`: a map from names to values plus an
optional outer scope.  The `HashMap` is modelled by an association list in
which insertion prepends and lookup takes the first match (exactly the
map's insert/overwrite semantics). -/
inductive Env where
  | mk (table : List (String × Value)) (outer : Option Env)

/-- `Environment::get`: innermost scope first, then the outer chain. -/
def Env.get : Env → String → Option Value
  | .mk t none, label => List.lookup label t
  | .mk t (some o), label =>
    match List.lookup label t with
    | some v => some v
    | none => Env.get o label

/-- `Environment::set`: always inserts/overwrites in the current scope. -/
def Env.set : Env → String → Value → Env
  | .mk t o, label, v => .mk ((label, v) :: t) o

/-- `convert_to_node` from `interpreter.rs`. -/
def convert_to_node (v : Value) : Node := .ValueWrapper v

/-- String `replace` (all non-overlapping occurrences, left to right),
modelling `str::replace`; fuel is the input length, which always
suffices because each step consumes at least one character. -/
def isPrefixOfL : List Char → List Char → Bool
  | [], _ => true
  | _ :: _, [] => false
  | p :: ps, c :: cs => p = c && isPrefixOfL ps cs

def replaceFrom (pat rep : List Char) : Nat → List Char → List Char
  | _, [] => []
  | 0, s => s
  | f+1, c :: cs =>
    if isPrefixOfL pat (c :: cs) then rep ++ replaceFrom pat rep f ((c :: cs).drop pat.length)
    else c :: replaceFrom pat rep f cs

def strReplace (s pat rep : String) : String :=
  String.mk (replaceFrom pat.toList rep.toList (s.toList.length + 1) s.toList)

/-- Rendering of the f64 model.  Rust's shortest-roundtrip `Display` for f64
prints integral values without a decimal part, which this reproduces; the
non-integral rendering is modelled as `num/den` (no claim formats a
non-integral float). -/
def qToStr (q : Q) : String :=
  if q.den = 1 then toString q.num else toString q.num ++ "/" ++ toString q.den

mutual
/-- `impl fmt::Display for Node` from `parser.rs`. -/
def Node.toStr : Node → String
  | .Symbol s => s
  | .Int n => toString n
  | .Float q => qToStr q
  | .Complex re im => qToStr re ++ "+" ++ qToStr im ++ "i"
  | .Bool true => "#t"
  | .Bool false => "#f"
  | .String s => "\"" ++ strReplace s "\"" "\\\"" ++ "\""
  | .List ns => "(" ++ Node.listToStr ns ++ ")"
  | .ValueWrapper v => Value.toStr v

/-- Space-separated rendering of a node list (the `Display` loop with its
separator logic). -/
def Node.listToStr : List Node → String
  | [] => ""
  | [n] => Node.toStr n
  | n :: ns => Node.toStr n ++ " " ++ Node.listToStr ns

/-- `impl fmt::Display for Value` from `interpreter.rs`.  The snapshot under
`src/` lacks arms for `Complex`, `String` and `NodeWrapper`; those three are
modelled after the corresponding `Node` arms (spec §6 rendering rules). -/
def Value.toStr : Value → String
  | .Int n => toString n
  | .Float q => qToStr q
  | .Complex re im => qToStr re ++ "+" ++ qToStr im ++ "i"
  | .Bool true => "#t"
  | .Bool false => "#f"
  | .Symbol s => s
  | .Literal s => s
  | .String s => "\"" ++ strReplace s "\"" "\\\"" ++ "\""
  | .List vs => "(" ++ Value.listToStr vs ++ ")"
  | .Lambda ps body => "(lambda (" ++ Node.listToStr ps ++ ") (" ++ Node.toStr body ++ "))"
  | .Function name => name
  | .Void => "()"
  | .NodeWrapper n => Node.toStr n

def Value.listToStr : List Value → String
  | [] => ""
  | [v] => Value.toStr v
  | v :: vs => Value.toStr v ++ " " ++ Value.listToStr vs
end

mutual
/-- `Interpreter::quote_node` from `interpreter.rs` (the `quote` primitive in
`environment.rs` performs the identical transformation through its own
recursion and is embedded through this function). -/
def quote_node : Node → Value
  | .Int n => .Literal (toString n)
  | .Float q => .Literal (qToStr q)
  | .Symbol s => .Literal s
  | .Bool true => .Literal "#t"
  | .Bool false => .Literal "#f"
  | .List ns => .List (quote_list ns)
  | _ => .Void

def quote_list : List Node → List Value
  | [] => []
  | n :: ns => quote_node n :: quote_list ns
end

/-- Parameter lookup for `inline_lambda_nodes`: walk `params` and `values`
in parallel; a symbol parameter equal to `label` yields its value.  (The
source indexes `values[i]`, which panics if `values` is shorter; callers
reach this only with equal lengths, so the exhausted case returns the
original node.) -/
def substParam : List Node → List Node → String → Node → Node
  | .Symbol p :: ps, v :: vs, label, orig =>
    if label = p then v else substParam ps vs label orig
  | _ :: ps, _ :: vs, label, orig => substParam ps vs label orig
  | _, _, _, orig => orig

mutual
/-- `Interpreter::inline_lambda_nodes` from `interpreter.rs`: structural
substitution of parameter symbols by the call-site argument nodes. -/
def inline_lambda_nodes : Node → List Node → List Node → Node
  | .List ns, params, values => .List (inline_list ns params values)
  | .Symbol label, params, values => substParam params values label (.Symbol label)
  | n, _, _ => n

def inline_list : List Node → List Node → List Node → List Node
  | [], _, _ => []
  | n :: ns, params, values =>
    inline_lambda_nodes n params values :: inline_list ns params values
end

/-- The `Bool(true) => Int(1) / Bool(false) => Int(0)` coercion that `add`,
`sub`, `mul` and `div` apply to each evaluated operand. -/
def boolCoerce : Value → Value
  | .Bool true => .Int 1
  | .Bool false => .Int 0
  | v => v

/-- The `(_, Int(0)) | (_, Float(0.0))` divisor pattern of `div`. -/
def isExactZero : Value → Bool
  | .Int n => n == 0
  | .Float q => q.num == 0
  | _ => false

/-- Result combination for `+` (the match at the end of `add`). -/
def addVals : Value → Value → EvalRes
  | .Int x, .Int y => .ok (.Int (wrap32 (x + y)))
  | .Float x, .Int y => .ok (.Float (qadd x (i2q y)))
  | .Int x, .Float y => .ok (.Float (qadd (i2q x) y))
  | .Float x, .Float y => .ok (.Float (qadd x y))
  | .Complex xr xi, .Int y => .ok (.Complex (qadd xr (i2q y)) xi)
  | .Complex xr xi, .Float y => .ok (.Complex (qadd xr y) xi)
  | .Int x, .Complex yr yi => .ok (.Complex (qadd (i2q x) yr) yi)
  | .Float x, .Complex yr yi => .ok (.Complex (qadd x yr) yi)
  | .Complex xr xi, .Complex yr yi => .ok (.Complex (qadd xr yr) (qadd xi yi))
  | .Symbol s, _ => .err ("Unknown symbol " ++ s)
  | _, .Symbol s => .err ("Unknown symbol " ++ s)
  | _, _ => .err ("Invalid types for " ++ apos ++ "+" ++ apos)

/-- Result combination for binary `-`. -/
def subVals : Value → Value → EvalRes
  | .Int x, .Int y => .ok (.Int (wrap32 (x - y)))
  | .Float x, .Int y => .ok (.Float (qsub x (i2q y)))
  | .Int x, .Float y => .ok (.Float (qsub (i2q x) y))
  | .Float x, .Float y => .ok (.Float (qsub x y))
  | .Complex xr xi, .Int y => .ok (.Complex (qsub xr (i2q y)) xi)
  | .Complex xr xi, .Float y => .ok (.Complex (qsub xr y) xi)
  | .Int x, .Complex yr yi => .ok (.Complex (qsub (i2q x) yr) yi)
  | .Float x, .Complex yr yi => .ok (.Complex (qsub x yr) yi)
  | .Complex xr xi, .Complex yr yi => .ok (.Complex (qsub xr yr) (qsub xi yi))
  | .Symbol s, _ => .err ("Unknown symbol " ++ s)
  | _, .Symbol s => .err ("Unknown symbol " ++ s)
  | _, _ => .err ("Invalid types for " ++ apos ++ "-" ++ apos)

/-- Folding step for N-ary `-` (same arms, producing the node re-inserted at
position 0). -/
def subStep : Value → Value → Sum EvalRes Node
  | .Int x, .Int y => .inr (.Int (wrap32 (x - y)))
  | .Float x, .Int y => .inr (.Float (qsub x (i2q y)))
  | .Int x, .Float y => .inr (.Float (qsub (i2q x) y))
  | .Float x, .Float y => .inr (.Float (qsub x y))
  | .Complex xr xi, .Int y => .inr (.Complex (qsub xr (i2q y)) xi)
  | .Complex xr xi, .Float y => .inr (.Complex (qsub xr y) xi)
  | .Int x, .Complex yr yi => .inr (.Complex (qsub (i2q x) yr) yi)
  | .Float x, .Complex yr yi => .inr (.Complex (qsub x yr) yi)
  | .Complex xr xi, .Complex yr yi => .inr (.Complex (qsub xr yr) (qsub xi yi))
  | .Symbol s, _ => .inl (.err ("Unknown symbol " ++ s))
  | _, .Symbol s => .inl (.err ("Unknown symbol " ++ s))
  | _, _ => .inl (.err ("Invalid types for " ++ apos ++ "-" ++ apos))

/-- Result combination for `*`.  The `(Complex, Float)` arm reproduces the
source exactly, including its unscaled imaginary part. -/
def mulVals : Value → Value → EvalRes
  | .Int x, .Int y => .ok (.Int (wrap32 (x * y)))
  | .Float x, .Int y => .ok (.Float (qmul x (i2q y)))
  | .Int x, .Float y => .ok (.Float (qmul (i2q x) y))
  | .Float x, .Float y => .ok (.Float (qmul x y))
  | .Complex xr xi, .Int y => .ok (.Complex (qmul xr (i2q y)) (qmul xi (i2q y)))
  | .Complex xr xi, .Float y => .ok (.Complex (qmul xr y) xi)
  | .Int x, .Complex yr yi => .ok (.Complex (qmul (i2q x) yr) (qmul (i2q x) yi))
  | .Float x, .Complex yr yi => .ok (.Complex (qmul x yr) (qmul x yi))
  | .Complex xr xi, .Complex yr yi =>
    .ok (.Complex (qsub (qmul xr yr) (qmul xi yi)) (qadd (qmul xr yi) (qmul yr xi)))
  | .Symbol s, _ => .err ("Unknown symbol " ++ s)
  | _, .Symbol s => .err ("Unknown symbol " ++ s)
  | _, _ => .err ("Invalid types for " ++ apos ++ "*" ++ apos)

/-- Result combination for binary `/`, with the exact-zero divisor check
first (the first match arm of the source).  In the `(Int, Int)` arm,
Rust's `i32` division checks overflow unconditionally: `i32::MIN / -1`
panics in every build profile, a host fault; every other nonzero divisor
yields the truncated quotient. -/
def divVals (x y : Value) : EvalRes :=
  if isExactZero y then .err "Invalid division by zero"
  else match x, y with
  | .Int a, .Int b =>
    if a = -2147483648 ∧ b = -1 then .fault
    else .ok (.Int (wrap32 (Int.tdiv a b)))
  | .Float a, .Int b => .ok (.Float (qdiv a (i2q b)))
  | .Int a, .Float b => .ok (.Float (qdiv (i2q a) b))
  | .Float a, .Float b => .ok (.Float (qdiv a b))
  | .Complex ar ai, .Int b => .ok (.Complex (qdiv ar (i2q b)) (qdiv ai (i2q b)))
  | .Complex ar ai, .Float b => .ok (.Complex (qdiv ar b) (qdiv ai b))
  | .Symbol s, _ => .err ("Unknown symbol " ++ s)
  | _, .Symbol s => .err ("Unknown symbol " ++ s)
  | a, .Complex yr yi =>
    let den := qadd (qmul yr yr) (qmul yi yi)
    match a with
    | .Int a2 => .ok (.Complex (qdiv (qmul (i2q a2) yr) den) (qdiv (qmul (qneg (i2q a2)) yi) den))
    | .Float a2 => .ok (.Complex (qdiv (qmul a2 yr) den) (qdiv (qmul (qneg a2) yi) den))
    | .Complex ar ai =>
      .ok (.Complex (qdiv (qadd (qmul ar yr) (qmul ai yi)) den)
                    (qdiv (qsub (qmul ai yr) (qmul ar yi)) den))
    | _ => .err ("Invalid types for " ++ apos ++ "/" ++ apos)
  | _, _ => .err ("Invalid types for " ++ apos ++ "/" ++ apos)

/-- Folding step for N-ary `/` (same arms, producing a node), with the
same unconditional `i32` division-overflow panic on `i32::MIN / -1`. -/
def divStep (x y : Value) : Sum EvalRes Node :=
  if isExactZero y then .inl (.err "Invalid division by zero")
  else match x, y with
  | .Int a, .Int b =>
    if a = -2147483648 ∧ b = -1 then .inl .fault
    else .inr (.Int (wrap32 (Int.tdiv a b)))
  | .Float a, .Int b => .inr (.Float (qdiv a (i2q b)))
  | .Int a, .Float b => .inr (.Float (qdiv (i2q a) b))
  | .Float a, .Float b => .inr (.Float (qdiv a b))
  | .Symbol s, _ => .inl (.err ("Unknown symbol " ++ s))
  | _, .Symbol s => .inl (.err ("Unknown symbol " ++ s))
  | .Complex ar ai, .Int b => .inr (.Complex (qdiv ar (i2q b)) (qdiv ai (i2q b)))
  | .Complex ar ai, .Float b => .inr (.Complex (qdiv ar b) (qdiv ai b))
  | a, .Complex yr yi =>
    let den := qadd (qmul yr yr) (qmul yi yi)
    match a with
    | .Int a2 => .inr (.Complex (qdiv (qmul (i2q a2) yr) den) (qdiv (qmul (qneg (i2q a2)) yi) den))
    | .Float a2 => .inr (.Complex (qdiv (qmul a2 yr) den) (qdiv (qmul (qneg a2) yi) den))
    | .Complex ar ai =>
      .inr (.Complex (qdiv (qadd (qmul ar yr) (qmul ai yi)) den)
                     (qdiv (qsub (qmul ai yr) (qmul ar yi)) den))
    | _ => .inl (.err ("Invalid types for " ++ apos ++ "/" ++ apos))
  | _, _ => .inl (.err ("Invalid types for " ++ apos ++ "/" ++ apos))

/-- Result combination for `pow`/`expt`.  Both `(Int, Int)` and the mixed
arms produce a `Float` (via `powi`/`powf`), exactly as the source does. -/
def powVals : Value → Value → EvalRes
  | .Int x, .Int y => .ok (.Float (powi (i2q x) y))
  | .Float x, .Int y => .ok (.Float (powi x y))
  | .Int x, .Float y => .ok (.Float (powf (i2q x) y))
  | .Float x, .Float y => .ok (.Float (powf x y))
  | .Symbol s, _ => .err ("Unknown symbol " ++ s)
  | _, .Symbol s => .err ("Unknown symbol " ++ s)
  | _, _ => .err ("Invalid types for " ++ apos ++ "pow" ++ apos)

/-- Result combination for `>`. -/
def gtVals : Value → Value → EvalRes
  | .Int x, .Int y => .ok (.Bool (decide (y < x)))
  | .Float x, .Int y => .ok (.Bool (qltB (i2q y) x))
  | .Int x, .Float y => .ok (.Bool (qltB y (i2q x)))
  | .Float x, .Float y => .ok (.Bool (qltB y x))
  | .Symbol s, _ => .err ("Unknown symbol " ++ s)
  | _, .Symbol s => .err ("Unknown symbol " ++ s)
  | _, _ => .err ("Invalid types for " ++ apos ++ ">" ++ apos)

/-- Result combination for `>=`. -/
def gteVals : Value → Value → EvalRes
  | .Int x, .Int y => .ok (.Bool (decide (y ≤ x)))
  | .Float x, .Int y => .ok (.Bool (qleB (i2q y) x))
  | .Int x, .Float y => .ok (.Bool (qleB y (i2q x)))
  | .Float x, .Float y => .ok (.Bool (qleB y x))
  | .Symbol s, _ => .err ("Unknown symbol " ++ s)
  | _, .Symbol s => .err ("Unknown symbol " ++ s)
  | _, _ => .err ("Invalid types for " ++ apos ++ ">=" ++ apos)

/-- Result combination for `<`. -/
def ltVals : Value → Value → EvalRes
  | .Int x, .Int y => .ok (.Bool (decide (x < y)))
  | .Float x, .Int y => .ok (.Bool (qltB x (i2q y)))
  | .Int x, .Float y => .ok (.Bool (qltB (i2q x) y))
  | .Float x, .Float y => .ok (.Bool (qltB x y))
  | .Symbol s, _ => .err ("Unknown symbol " ++ s)
  | _, .Symbol s => .err ("Unknown symbol " ++ s)
  | _, _ => .err ("Invalid types for " ++ apos ++ "<" ++ apos)

/-- Result combination for `<=`. -/
def lteVals : Value → Value → EvalRes
  | .Int x, .Int y => .ok (.Bool (decide (x ≤ y)))
  | .Float x, .Int y => .ok (.Bool (qleB x (i2q y)))
  | .Int x, .Float y => .ok (.Bool (qleB (i2q x) y))
  | .Float x, .Float y => .ok (.Bool (qleB x y))
  | .Symbol s, _ => .err ("Unknown symbol " ++ s)
  | _, .Symbol s => .err ("Unknown symbol " ++ s)
  | _, _ => .err ("Invalid types for " ++ apos ++ "<=" ++ apos)

/-- Result combination for `=`/`equal?`. -/
def eqVals : Value → Value → EvalRes
  | .Int x, .Int y => .ok (.Bool (x == y))
  | .Float x, .Int y => .ok (.Bool (qeqB x (i2q y)))
  | .Int x, .Float y => .ok (.Bool (qeqB (i2q x) y))
  | .Float x, .Float y => .ok (.Bool (qeqB x y))
  | .Complex xr xi, .Int y => .ok (.Bool (qeqB xr (i2q y) && qeqB xi qzero))
  | .Complex xr xi, .Float y => .ok (.Bool (qeqB xr y && qeqB xi qzero))
  | .Int x, .Complex yr yi => .ok (.Bool (qeqB (i2q x) yr && qeqB yi qzero))
  | .Float x, .Complex yr yi => .ok (.Bool (qeqB x yr && qeqB yi qzero))
  | .Complex xr xi, .Complex yr yi => .ok (.Bool (qeqB xr yr && qeqB xi yi))
  | .Literal x, .Literal y => .ok (.Bool (x == y))
  | .String x, .String y => .ok (.Bool (x == y))
  | .Symbol s, _ => .err ("Unknown symbol " ++ s)
  | _, .Symbol s => .err ("Unknown symbol " ++ s)
  | _, _ => .err ("Invalid types for " ++ apos ++ "=" ++ apos)

/-- The root environment table built by `Environment::initialize`, in
insertion order. -/
def initialTable : List (String × Value) :=
  [ ("begin",  .Function "begin")
  , ("+",      .Function "+")
  , ("-",      .Function "-")
  , ("*",      .Function "*")
  , ("/",      .Function "/")
  , ("pow",    .Function "pow")
  , ("expt",   .Function "expt")
  , ("define", .Function "define")
  , ("set!",   .Function "set!")
  , (">",      .Function ">")
  , (">=",     .Function ">=")
  , ("<",      .Function "<")
  , ("<=",     .Function "<=")
  , ("=",      .Function "=")
  , ("equal?", .Function "equal?")
  , ("not",    .Function "not")
  , ("and",    .Function "and")
  , ("or",     .Function "or")
  , ("list",   .Function "list")
  , ("car",    .Function "car")
  , ("cdr",    .Function "cdr")
  , ("cons",   .Function "cons")
  , ("append", .Function "append")
  , ("empty?", .Function "empty?")
  , ("null?",  .Function "null?")
  , ("length", .Function "length")
  , ("if",     .Function "if")
  , ("map",    .Function "map")
  , ("sin",    .Function "sin")
  , ("cos",    .Function "cos")
  , ("tan",    .Function "tan")
  , ("asin",   .Function "asin")
  , ("acos",   .Function "acos")
  , ("atan",   .Function "atan")
  , ("exp",    .Function "exp")
  , ("log",    .Function "log")
  , ("log10",  .Function "log10")
  , ("sqrt",   .Function "sqrt")
  , ("quote",  .Function "quote")
  , ("lambda", .Function "lambda")
  , ("pi",     .Float piQ)
  , ("e",      .Float eQ)
  ]

/-- `Environment::new(None)`: the root environment. -/
def initialEnv : Env := .mk initialTable none

/-- Propagation combinator: the recurring Rust pattern
`match r { Ok(val) => ..., err => return err }` (errors, faults and
exhausted fuel pass through). -/
def onOk (r : Option (Env × EvalRes)) (k : Env → Value → Option (Env × EvalRes)) :
    Option (Env × EvalRes) :=
  match r with
  | some (e, .ok v) => k e v
  | other => other

/-- Outcome of the parameter-binding loop of `eval_lambda`. -/
inductive BindOut where
  | done (table : List (String × Value))
  | stop (r : EvalRes)

mutual

/-- Modelled from the spec (§4.4): the trampoline loop `eval_node`.  The
`interpreter.rs` snapshot under `src/` predates the trampoline split (its
`Value` cannot even carry the `Value::NodeWrapper` that `environment.rs`'s
`if_fn` constructs), so the loop — repeatedly take one reduction step and
continue with the unwrapped node while the step returns a
`NodeWrapper` — is taken from spec §4.4; the single step
(`evalNodeWrapped`) is the `eval_node` dispatch of `src/interpreter.rs`
itself. -/
def evalNode : Nat → Env → Node → Option (Env × EvalRes)
  | 0, _, _ => none
  | fuel+1, env, node =>
    match evalNodeWrapped fuel env node with
    | some (env2, .ok (.NodeWrapper n2)) => evalNode fuel env2 n2
    | r => r

/-- One reduction step: the dispatch body of `Interpreter::eval_node` from
`src/interpreter.rs` (lines 85-137).  The `Complex` and `String` literal
arms are modelled from spec §4.4 rule 1 (the snapshot's `match` predates
those node variants); everything else — including the final
`_ => Ok(func_val.clone())` arm — is the source's. -/
def evalNodeWrapped : Nat → Env → Node → Option (Env × EvalRes)
  | 0, _, _ => none
  | fuel+1, env, node =>
    match node with
    | .ValueWrapper v => some (env, .ok v)
    | .Int n => some (env, .ok (.Int n))
    | .Float q => some (env, .ok (.Float q))
    | .Bool b => some (env, .ok (.Bool b))
    | .Complex re im => some (env, .ok (.Complex re im))
    | .String s => some (env, .ok (.String s))
    | .Symbol s =>
      match env.get s with
      | some v => some (env, .ok v)
      | none => some (env, .ok (.Symbol s))
    | .List [] => some (env, .fault)
    | .List (n0 :: rest) =>
      onOk (evalNode fuel env n0) (fun env1 fv =>
        match fv with
        | .Symbol val =>
          if val = "quote" then
            match rest.get? 0 with
            | some n1 => some (env1, .ok (quote_node n1))
            | none => some (env1, .fault)
          else if val = "lambda" then
            match rest.get? 0 with
            | none => some (env1, .fault)
            | some p =>
              let params : List Node := match p with
                | .List ps => ps
                | _ => []
              match rest.get? 1 with
              | none => some (env1, .fault)
              | some body => some (env1, .ok (.Lambda params body))
          else some (env1, .err ("Unknown function " ++ val))
        | .Function name => applyPrim fuel name env1 rest
        | .Lambda ps body => evalLambda fuel env1 ps body (n0 :: rest)
        | _ => some (env1, .ok fv))

/-- Name dispatch to the primitive table of `Environment::initialize`
(the source stores the function pointer next to the name; see the comment
on `Value.Function`). -/
def applyPrim : Nat → String → Env → List Node → Option (Env × EvalRes)
  | 0, _, _, _ => none
  | fuel+1, name, env, args =>
    match name with
    | "begin" => begin fuel env args
    | "+" => add fuel env args
    | "-" => sub fuel env args
    | "*" => mul fuel env args
    | "/" => div fuel env args
    | "pow" => pow fuel env args
    | "expt" => pow fuel env args
    | "define" => def_fn fuel env args
    | "set!" => def_fn fuel env args
    | ">" => gt fuel env args
    | ">=" => gte fuel env args
    | "<" => lt fuel env args
    | "<=" => lte fuel env args
    | "=" => eq fuel env args
    | "equal?" => eq fuel env args
    | "not" => notFn fuel env args
    | "and" => and fuel env args
    | "or" => or fuel env args
    | "list" => list fuel env args
    | "car" => car fuel env args
    | "cdr" => cdr fuel env args
    | "cons" => cons fuel env args
    | "append" => append fuel env args
    | "empty?" => emptyq fuel env args
    | "null?" => emptyq fuel env args
    | "length" => length fuel env args
    | "if" => if_fn fuel env args
    | "map" => map fuel env args
    | "sin" => unary_float fuel "sin" (hostReal "sin") env args
    | "cos" => unary_float fuel "cos" (hostReal "cos") env args
    | "tan" => unary_float fuel "tan" (hostReal "tan") env args
    | "asin" => unary_float fuel "asin" (hostReal "asin") env args
    | "acos" => unary_float fuel "acos" (hostReal "acos") env args
    | "atan" => unary_float fuel "atan" (hostReal "atan") env args
    | "exp" => unary_float fuel "exp" (hostReal "exp") env args
    | "log" => unary_float fuel "log" (hostReal "log") env args
    | "log10" => unary_float fuel "log10" (hostReal "log10") env args
    | "sqrt" => unary_float fuel "sqrt" (hostReal "sqrt") env args
    | "quote" => quote fuel env args
    | "lambda" => def_lambda fuel env args
    | _ => some (env, .err ("unregistered primitive " ++ name))

/-- `Interpreter::eval_lambda` from `src/interpreter.rs` (lines 139-165):
arity check first (`nodes.len() - 1 != params.len()`, with the error
message naming the callee `nodes[0]`), then each argument node evaluated
in the caller's environment and bound into a fresh child scope layered
over the entry environment, then the body evaluated — after
`inline_lambda_nodes` substitution — in that child scope, whose mutations
are discarded.  An empty `nodes` vector would panic in the source (usize
underflow / `nodes[0]`), hence `fault`. -/
def evalLambda : Nat → Env → List Node → Node → List Node → Option (Env × EvalRes)
  | 0, _, _, _, _ => none
  | _+1, env, _, _, [] => some (env, .fault)
  | fuel+1, env, params, body, n0 :: args =>
    if args.length ≠ params.length then
      some (env, .err (Node.toStr n0 ++ " expects " ++ toString params.length ++
                       " params, got " ++ toString args.length))
    else
      match bindArgs fuel env params args [] with
      | none => none
      | some (envA, .stop r) => some (envA, r)
      | some (envA, .done table) =>
        let childEnv := Env.mk table (some env)
        let body2 := inline_lambda_nodes body params args
        match evalNode fuel childEnv body2 with
        | none => none
        | some (_, r) => some (envA, r)

/-- The parameter-binding loop of `eval_lambda`: each parameter must be a
symbol (else `Invalid parameter` error), each argument node is evaluated in
the caller's environment, and the pair is inserted into the child table.
A missing argument (unreachable behind the arity check) would be an index
panic. -/
def bindArgs : Nat → Env → List Node → List Node → List (String × Value) →
    Option (Env × BindOut)
  | _, env, [], _, acc => some (env, .done acc)
  | 0, _, _ :: _, _, _ => none
  | fuel+1, env, p :: ps, args, acc =>
    match p with
    | .Symbol val =>
      match args with
      | [] => some (env, .stop .fault)
      | a :: rest =>
        match evalNode fuel env a with
        | none => none
        | some (env1, .ok v) => bindArgs fuel env1 ps rest ((val, v) :: acc)
        | some (env1, r) => some (env1, .stop r)
    | _ => some (env, .stop (.err ("Invalid parameter " ++ Node.toStr p)))

/-- `begin` from `environment.rs`: evaluates the forms in order inside a
fresh child interpreter (whose scope is discarded), and returns the last
result — the loop keeps going even after an `Err`, exactly as the source
reassigns `val` on every iteration. -/
def begin : Nat → Env → List Node → Option (Env × EvalRes)
  | 0, _, _ => none
  | fuel+1, env, xs =>
    match beginLoop fuel (Env.mk [] (some env)) xs (.ok .Void) with
    | none => none
    | some r => some (env, r)

def beginLoop : Nat → Env → List Node → EvalRes → Option EvalRes
  | _, _, [], last => some last
  | 0, _, _ :: _, _ => none
  | fuel+1, envc, x :: rest, _ =>
    match evalNode fuel envc x with
    | none => none
    | some (_, .fault) => some .fault
    | some (envc1, r) => beginLoop fuel envc1 rest r

/-- `add` from `environment.rs`: variadic right fold; empty argument list
yields `Int 0`; each operand is evaluated and Bool-coerced. -/
def add : Nat → Env → List Node → Option (Env × EvalRes)
  | _, env, [] => some (env, .ok (.Int 0))
  | 0, _, _ :: _ => none
  | fuel+1, env, x0 :: ys =>
    onOk (evalNode fuel env x0) (fun env1 v0 =>
      let x := boolCoerce v0
      onOk (add fuel env1 ys) (fun env2 vr =>
        let y := boolCoerce vr
        some (env2, addVals x y)))

/-- `sub` from `environment.rs`: empty list yields `Int 0`; with a single
argument the source indexes the missing `xs[1]` (panic); with two it
combines directly; with more it folds left and recurses. -/
def sub : Nat → Env → List Node → Option (Env × EvalRes)
  | _, env, [] => some (env, .ok (.Int 0))
  | 0, _, _ :: _ => none
  | fuel+1, env, [x0] =>
    onOk (evalNode fuel env x0) (fun env1 _ => some (env1, .fault))
  | fuel+1, env, x0 :: x1 :: rest =>
    onOk (evalNode fuel env x0) (fun env1 v0 =>
      onOk (evalNode fuel env1 x1) (fun env2 v1 =>
        let x := boolCoerce v0
        let y := boolCoerce v1
        match rest with
        | [] => some (env2, subVals x y)
        | _ :: _ =>
          match subStep x y with
          | .inl r => some (env2, r)
          | .inr nd => sub fuel env2 (nd :: rest)))

/-- `mul` from `environment.rs`: variadic right fold; empty argument list
yields `Int 1`. -/
def mul : Nat → Env → List Node → Option (Env × EvalRes)
  | _, env, [] => some (env, .ok (.Int 1))
  | 0, _, _ :: _ => none
  | fuel+1, env, x0 :: ys =>
    onOk (evalNode fuel env x0) (fun env1 v0 =>
      let x := boolCoerce v0
      onOk (mul fuel env1 ys) (fun env2 vr =>
        let y := boolCoerce vr
        some (env2, mulVals x y)))

/-- `div` from `environment.rs`: a single argument yields `Int 1`; an empty
list panics on `xs[0]`; two arguments combine via `divVals` (exact-zero
divisor checked first); more fold left via `divStep`. -/
def div : Nat → Env → List Node → Option (Env × EvalRes)
  | _, env, [_] => some (env, .ok (.Int 1))
  | _, env, [] => some (env, .fault)
  | 0, _, _ => none
  | fuel+1, env, x0 :: x1 :: rest =>
    onOk (evalNode fuel env x0) (fun env1 v0 =>
      onOk (evalNode fuel env1 x1) (fun env2 v1 =>
        let x := boolCoerce v0
        let y := boolCoerce v1
        match rest with
        | [] => some (env2, divVals x y)
        | _ :: _ =>
          match divStep x y with
          | .inl r => some (env2, r)
          | .inr nd => div fuel env2 (nd :: rest)))

/-- `pow` from `environment.rs`: exactly two arguments (no Bool coercion);
both `Int` operands still produce a `Float` via `powi`. -/
def pow : Nat → Env → List Node → Option (Env × EvalRes)
  | 0, _, _ => none
  | fuel+1, env, [x0, x1] =>
    onOk (evalNode fuel env x0) (fun env1 v0 =>
      onOk (evalNode fuel env1 x1) (fun env2 v1 =>
        some (env2, powVals v0 v1)))
  | _+1, env, _ =>
    some (env, .err (apos ++ "expt" ++ apos ++ " takes exactly two arguments"))

/-- `def` from `environment.rs` (bound as `define` and `set!`): a list head
is sugar for a lambda definition; a symbol head evaluates the right-hand
side and binds it in the current scope; anything else is an error. -/
def def_fn : Nat → Env → List Node → Option (Env × EvalRes)
  | 0, _, _ => none
  | _+1, env, [] => some (env, .fault)
  | fuel+1, env, x :: xs =>
    match x with
    | .List [] => some (env, .fault)
    | .List (n0 :: params) =>
      let bodyOpt : Option Node :=
        if (x :: xs).length > 2 then some (.List (.Symbol "begin" :: xs))
        else xs.get? 0
      match bodyOpt with
      | none => some (env, .fault)
      | some body =>
        def_fn fuel env [n0, .ValueWrapper (.Lambda params body)]
    | .Symbol label =>
      match xs.get? 0 with
      | none => some (env, .fault)
      | some x1 =>
        onOk (evalNode fuel env x1) (fun env1 y =>
          some (Env.set env1 label y, .ok .Void))
    | _ => some (env, .err ("Can" ++ apos ++ "t define " ++ Node.toStr x))

/-- `gt` from `environment.rs` (`>`). -/
def gt : Nat → Env → List Node → Option (Env × EvalRes)
  | 0, _, _ => none
  | fuel+1, env, [x0, x1] =>
    onOk (evalNode fuel env x0) (fun env1 v0 =>
      onOk (evalNode fuel env1 x1) (fun env2 v1 =>
        some (env2, gtVals v0 v1)))
  | _+1, env, _ =>
    some (env, .err (apos ++ ">" ++ apos ++ " takes exactly two arguments"))

/-- `gte` from `environment.rs` (`>=`). -/
def gte : Nat → Env → List Node → Option (Env × EvalRes)
  | 0, _, _ => none
  | fuel+1, env, [x0, x1] =>
    onOk (evalNode fuel env x0) (fun env1 v0 =>
      onOk (evalNode fuel env1 x1) (fun env2 v1 =>
        some (env2, gteVals v0 v1)))
  | _+1, env, _ =>
    some (env, .err (apos ++ ">=" ++ apos ++ " takes exactly two arguments"))

/-- `lt` from `environment.rs` (`<`). -/
def lt : Nat → Env → List Node → Option (Env × EvalRes)
  | 0, _, _ => none
  | fuel+1, env, [x0, x1] =>
    onOk (evalNode fuel env x0) (fun env1 v0 =>
      onOk (evalNode fuel env1 x1) (fun env2 v1 =>
        some (env2, ltVals v0 v1)))
  | _+1, env, _ =>
    some (env, .err (apos ++ "<" ++ apos ++ " takes exactly two arguments"))

/-- `lte` from `environment.rs` (`<=`). -/
def lte : Nat → Env → List Node → Option (Env × EvalRes)
  | 0, _, _ => none
  | fuel+1, env, [x0, x1] =>
    onOk (evalNode fuel env x0) (fun env1 v0 =>
      onOk (evalNode fuel env1 x1) (fun env2 v1 =>
        some (env2, lteVals v0 v1)))
  | _+1, env, _ =>
    some (env, .err (apos ++ "<=" ++ apos ++ " takes exactly two arguments"))

/-- `eq` from `environment.rs` (`=` and `equal?`). -/
def eq : Nat → Env → List Node → Option (Env × EvalRes)
  | 0, _, _ => none
  | fuel+1, env, [x0, x1] =>
    onOk (evalNode fuel env x0) (fun env1 v0 =>
      onOk (evalNode fuel env1 x1) (fun env2 v1 =>
        some (env2, eqVals v0 v1)))
  | _+1, env, _ =>
    some (env, .err (apos ++ "=" ++ apos ++ " takes exactly two arguments"))

/-- `not` from `environment.rs` (named `notFn` here to avoid shadowing the
Boolean function used in the embedding itself). -/
def notFn : Nat → Env → List Node → Option (Env × EvalRes)
  | 0, _, _ => none
  | fuel+1, env, [x0] =>
    onOk (evalNode fuel env x0) (fun env1 v =>
      match v with
      | .Bool b => some (env1, .ok (.Bool (!b)))
      | _ => some (env1, .err ("Invalid type for " ++ apos ++ "not" ++ apos)))
  | _+1, env, _ =>
    some (env, .err (apos ++ "not" ++ apos ++ " takes exactly one argument"))

/-- `and` from `environment.rs`: empty list is `#t`; the head is evaluated,
and if further arguments remain the fold continues only on `Bool(true)` —
`Bool(false)` is returned at once and the remaining nodes are never
evaluated. -/
def and : Nat → Env → List Node → Option (Env × EvalRes)
  | _, env, [] => some (env, .ok (.Bool true))
  | 0, _, _ :: _ => none
  | fuel+1, env, x0 :: ys =>
    match evalNode fuel env x0 with
    | none => none
    | some (env1, r) =>
      match ys with
      | [] => some (env1, r)
      | _ :: _ =>
        match r with
        | .ok (.Bool true) => and fuel env1 ys
        | .ok (.Bool false) => some (env1, r)
        | .ok _ => some (env1, .err ("Invalid type for " ++ apos ++ "and" ++ apos))
        | _ => some (env1, r)

/-- `or` from `environment.rs`: dual to `and` (its non-Bool error message
says `and`, as in the source). -/
def or : Nat → Env → List Node → Option (Env × EvalRes)
  | _, env, [] => some (env, .ok (.Bool false))
  | 0, _, _ :: _ => none
  | fuel+1, env, x0 :: ys =>
    match evalNode fuel env x0 with
    | none => none
    | some (env1, r) =>
      match ys with
      | [] => some (env1, r)
      | _ :: _ =>
        match r with
        | .ok (.Bool false) => or fuel env1 ys
        | .ok (.Bool true) => some (env1, r)
        | .ok _ => some (env1, .err ("Invalid type for " ++ apos ++ "and" ++ apos))
        | _ => some (env1, r)

/-- `list` from `environment.rs`: evaluate every argument in order. -/
def list : Nat → Env → List Node → Option (Env × EvalRes)
  | 0, _, _ => none
  | fuel+1, env, xs => listLoop fuel env xs []

def listLoop : Nat → Env → List Node → List Value → Option (Env × EvalRes)
  | _, env, [], acc => some (env, .ok (.List acc.reverse))
  | 0, _, _ :: _, _ => none
  | fuel+1, env, x :: rest, acc =>
    match evalNode fuel env x with
    | none => none
    | some (env1, .ok v) => listLoop fuel env1 rest (v :: acc)
    | some (env1, r) => some (env1, r)

/-- `emptyq` from `environment.rs` (`empty?` and `null?`). -/
def emptyq : Nat → Env → List Node → Option (Env × EvalRes)
  | 0, _, _ => none
  | fuel+1, env, [x0] =>
    onOk (evalNode fuel env x0) (fun env1 v =>
      match v with
      | .List vals => some (env1, .ok (.Bool (vals.length == 0)))
      | _ => some (env1, .err ("Invalid type for " ++ apos ++ "empty?" ++ apos)))
  | _+1, env, _ =>
    some (env, .err (apos ++ "empty?" ++ apos ++ " takes exactly one argument"))

/-- `length` from `environment.rs` (`vals.len() as i32`, wrapped). -/
def length : Nat → Env → List Node → Option (Env × EvalRes)
  | 0, _, _ => none
  | fuel+1, env, [x0] =>
    onOk (evalNode fuel env x0) (fun env1 v =>
      match v with
      | .List vals => some (env1, .ok (.Int (wrap32 vals.length)))
      | _ => some (env1, .err ("Invalid type for " ++ apos ++ "length" ++ apos)))
  | _+1, env, _ =>
    some (env, .err (apos ++ "length" ++ apos ++ " takes exactly one argument"))

/-- `car` from `environment.rs`: `vals[0]` — on an empty list this is an
out-of-bounds index, a host panic (`fault`), not an `EvalError`. -/
def car : Nat → Env → List Node → Option (Env × EvalRes)
  | 0, _, _ => none
  | fuel+1, env, [x0] =>
    onOk (evalNode fuel env x0) (fun env1 v =>
      match v with
      | .List [] => some (env1, .fault)
      | .List (h :: _) => some (env1, .ok h)
      | _ => some (env1, .err ("Invalid type for " ++ apos ++ "car" ++ apos)))
  | _+1, env, _ =>
    some (env, .err (apos ++ "car" ++ apos ++ " takes exactly one argument"))

/-- `cdr` from `environment.rs`: `vals.remove(0)` — on an empty list this
panics (`fault`); otherwise the list without its first element. -/
def cdr : Nat → Env → List Node → Option (Env × EvalRes)
  | 0, _, _ => none
  | fuel+1, env, [x0] =>
    onOk (evalNode fuel env x0) (fun env1 v =>
      match v with
      | .List [] => some (env1, .fault)
      | .List (_ :: t) => some (env1, .ok (.List t))
      | _ => some (env1, .err ("Invalid type for " ++ apos ++ "cdr" ++ apos)))
  | _+1, env, _ =>
    some (env, .err (apos ++ "cdr" ++ apos ++ " takes exactly one argument"))

/-- `cons` from `environment.rs`. -/
def cons : Nat → Env → List Node → Option (Env × EvalRes)
  | 0, _, _ => none
  | fuel+1, env, [x0, x1] =>
    onOk (evalNode fuel env x0) (fun env1 v =>
      onOk (evalNode fuel env1 x1) (fun env2 vs =>
        match vs with
        | .List vals => some (env2, .ok (.List (v :: vals)))
        | _ => some (env2, .err ("Invalid type for " ++ apos ++ "cons" ++ apos))))
  | _+1, env, _ =>
    some (env, .err (apos ++ "cons" ++ apos ++ " takes exactly two arguments"))

/-- `append` from `environment.rs` (its error messages say `cons`, as in the
source). -/
def append : Nat → Env → List Node → Option (Env × EvalRes)
  | 0, _, _ => none
  | fuel+1, env, [x0, x1] =>
    onOk (evalNode fuel env x0) (fun env1 v0 =>
      onOk (evalNode fuel env1 x1) (fun env2 v1 =>
        match v0, v1 with
        | .List xs2, .List ys2 => some (env2, .ok (.List (xs2 ++ ys2)))
        | _, _ => some (env2, .err ("Invalid type for " ++ apos ++ "cons" ++ apos))))
  | _+1, env, _ =>
    some (env, .err (apos ++ "cons" ++ apos ++ " takes exactly two arguments"))

/-- `if_fn` from `environment.rs` (lines 690-705): exactly three arguments,
only the test is evaluated, and the chosen branch is returned unevaluated
as a `Value::NodeWrapper` for the trampoline. -/
def if_fn : Nat → Env → List Node → Option (Env × EvalRes)
  | 0, _, _ => none
  | fuel+1, env, [t, thenN, elseN] =>
    match evalNode fuel env t with
    | none => none
    | some (env1, .ok (.Bool true)) => some (env1, .ok (.NodeWrapper thenN))
    | some (env1, .ok (.Bool false)) => some (env1, .ok (.NodeWrapper elseN))
    | some (env1, .ok _) =>
      some (env1, .err (apos ++ "if" ++ apos ++ " requires a boolean test"))
    | some (env1, r) => some (env1, r)
  | _+1, env, _ =>
    some (env, .err (apos ++ "if" ++ apos ++ " takes exactly three arguments"))

/-- `map` from `environment.rs`: a `Function` is applied elementwise with
per-element `Err`s silently dropped; a `Lambda` propagates the first
error. -/
def map : Nat → Env → List Node → Option (Env × EvalRes)
  | 0, _, _ => none
  | fuel+1, env, [f0, l0] =>
    onOk (evalNode fuel env f0) (fun env1 fv =>
      onOk (evalNode fuel env1 l0) (fun env2 lv =>
        match fv, lv with
        | .Function name, .List vals => mapPrim fuel name env2 vals []
        | .Lambda ps body, .List vals => mapLambda fuel ps body f0 env2 vals []
        | _, _ => some (env2, .err ("Invalid type for " ++ apos ++ "map" ++ apos))))
  | _+1, env, _ =>
    some (env, .err (apos ++ "map" ++ apos ++ " takes exactly two arguments"))

def mapPrim : Nat → String → Env → List Value → List Value → Option (Env × EvalRes)
  | _, _, env, [], acc => some (env, .ok (.List acc.reverse))
  | 0, _, _, _ :: _, _ => none
  | fuel+1, name, env, v :: vs, acc =>
    match applyPrim fuel name env [convert_to_node v] with
    | none => none
    | some (env1, .ok r) => mapPrim fuel name env1 vs (r :: acc)
    | some (env1, .err _) => mapPrim fuel name env1 vs acc
    | some (env1, .fault) => some (env1, .fault)

def mapLambda : Nat → List Node → Node → Node → Env → List Value → List Value →
    Option (Env × EvalRes)
  | _, _, _, _, env, [], acc => some (env, .ok (.List acc.reverse))
  | 0, _, _, _, _, _ :: _, _ => none
  | fuel+1, ps, body, f0, env, v :: vs, acc =>
    match evalLambda fuel env ps body [f0, convert_to_node v] with
    | none => none
    | some (env1, .ok r) => mapLambda fuel ps body f0 env1 vs (r :: acc)
    | some (env1, r) => some (env1, r)

/-- Shared shape of the ten unary float primitives of `environment.rs`
(`sin` … `sqrt`), which the source spells out one by one (its own comment
laments the copy-paste); `f` is the host float function being modelled. -/
def unary_float : Nat → String → (Q → Q) → Env → List Node → Option (Env × EvalRes)
  | 0, _, _, _, _ => none
  | fuel+1, fname, f, env, [x0] =>
    onOk (evalNode fuel env x0) (fun env1 v =>
      match v with
      | .Int n => some (env1, .ok (.Float (f (i2q n))))
      | .Float q => some (env1, .ok (.Float (f q)))
      | _ => some (env1, .err ("Invalid type for " ++ apos ++ fname ++ apos)))
  | _+1, fname, _, env, _ =>
    some (env, .err (apos ++ fname ++ apos ++ " takes exactly one argument"))

/-- `quote` from `environment.rs`: exactly one argument, transformed without
evaluation (see `quote_node`). -/
def quote : Nat → Env → List Node → Option (Env × EvalRes)
  | 0, _, _ => none
  | _+1, env, [x0] => some (env, .ok (quote_node x0))
  | _+1, env, _ =>
    some (env, .err (apos ++ "quote" ++ apos ++ " takes exactly one argument"))

/-- `def_lambda` from `environment.rs` (its arity message reads
`argumenta`, as in the source). -/
def def_lambda : Nat → Env → List Node → Option (Env × EvalRes)
  | 0, _, _ => none
  | _+1, env, [p, b] =>
    match p with
    | .List ps => some (env, .ok (.Lambda ps b))
    | _ => some (env, .err "lambda should provide a param list")
  | _+1, env, _ =>
    some (env, .err (apos ++ "lambda" ++ apos ++ " takes exactly two argumenta"))

end

/-- `Interpreter::eval`: delegates to `eval_node`. -/
def eval (fuel : Nat) (env : Env) (tree : Node) : Option (Env × EvalRes) :=
  evalNode fuel env tree

/-- Token stream elements, from `parser.rs` (`enum Token`). -/
inductive Token where
  | OpenParen
  | CloseParen
  | String (s : String)
  | NonParen (s : String)
deriving DecidableEq

/-- `str::split_whitespace`, modelled on the character list: split at
whitespace runs, discarding empty pieces. -/
def splitWsAux : List Char → List Char → List (List Char)
  | [], [] => []
  | [], acc => [acc.reverse]
  | c :: cs, acc =>
    if c.isWhitespace then
      (if acc = [] then splitWsAux cs [] else acc.reverse :: splitWsAux cs [])
    else splitWsAux cs (c :: acc)

def splitWs (s : String) : List String :=
  (splitWsAux s.toList []).map (fun l => String.mk l)

/-- `Vec::join(" ")` for the collected string pieces. -/
def joinSpace : List String → String
  | [] => ""
  | [s] => s
  | s :: rest => s ++ " " ++ joinSpace rest

/-- The token loop of `tokenize` from `parser.rs` (lines 63-108), one
whitespace-separated piece at a time, carrying the `in_quote`,
`quote_level`, `in_string` and `string` state exactly as the source does
(including `in_quote` never being reset after a quoted list closes). -/
def tokenizeLoop : List String → Bool → Int → Bool → List String → List Token
  | [], _, _, _, _ => []
  | token :: rest, in_quote, quote_level, in_string, string =>
    if !in_string then
      if token = "(" then
        Token.OpenParen ::
          tokenizeLoop rest in_quote (if in_quote then quote_level + 1 else quote_level)
            in_string string
      else if token = ")" then
        let ql := if in_quote then quote_level - 1 else quote_level
        if in_quote ∧ ql = 0 then
          Token.CloseParen :: Token.CloseParen ::
            tokenizeLoop rest in_quote ql in_string string
        else
          Token.CloseParen :: tokenizeLoop rest in_quote ql in_string string
      else if token = apos then
        Token.OpenParen :: Token.NonParen "quote" ::
          tokenizeLoop rest true quote_level in_string string
      else if token = "\"" then
        tokenizeLoop rest in_quote quote_level true []
      else
        Token.NonParen token :: tokenizeLoop rest in_quote quote_level in_string string
    else
      if token = "\"" then
        Token.String (joinSpace string) ::
          tokenizeLoop rest in_quote quote_level false []
      else
        tokenizeLoop rest in_quote quote_level in_string
          (string ++ [strReplace token "\\\"" "\""])

/-- `tokenize` from `parser.rs`: spread the parentheses and string quotes
with whitespace (the four `replace` calls, in source order), split on
whitespace, and run the token loop. -/
def tokenize (program : String) : List Token :=
  let program_spread :=
    strReplace (strReplace (strReplace (strReplace program "(" " ( ") ")" " ) ")
      "\"" " \" ") "\\ \" " "\\\""
  tokenizeLoop (splitWs program_spread) false 0 false []

/-- Outcome of `parse`: an `Ok(Node)`, an `Err(ParseError)` with its
message, or a host panic (`fault`), the same convention as `EvalRes`. -/
inductive POut where
  | ok (n : Node)
  | err (msg : String)
  | fault

def takeDigits : List Char → (List Char × List Char)
  | [] => ([], [])
  | c :: cs =>
    if c.isDigit then
      let (d, r) := takeDigits cs
      (c :: d, r)
    else ([], c :: cs)

/-- Digit run to a natural number (callers pass digit-only lists). -/
def natOfDigits : List Char → Nat → Option Nat
  | [], acc => some acc
  | c :: cs, acc =>
    if c.isDigit then natOfDigits cs (acc * 10 + (c.toNat - 48)) else none

/-- Modelled from the spec: `str::parse::<i32>` from the Rust standard
library (optional sign, at least one digit, in-range for i32). -/
def parseI32 (s : String) : Option Int :=
  let cs := s.toList
  let sgn : Int := match cs with | '-' :: _ => -1 | _ => 1
  let ds := match cs with
    | '+' :: rest => rest
    | '-' :: rest => rest
    | other => other
  match ds with
  | [] => none
  | _ =>
    match natOfDigits ds 0 with
    | none => none
    | some n =>
      let v : Int := sgn * n
      if v < -2147483648 ∨ 2147483647 < v then none else some v

/-- Modelled from the spec: `str::parse::<f64>` from the Rust standard
library, restricted to plain decimal forms (optional sign, digits with at
most one dot, at least one digit); the exponent/infinity/NaN forms the
real parser also accepts are not modelled — no claim depends on them. -/
def parseF64 (s : String) : Option Q :=
  let cs := s.toList
  let sgn : Int := match cs with | '-' :: _ => -1 | _ => 1
  let body := match cs with
    | '+' :: rest => rest
    | '-' :: rest => rest
    | other => other
  let (d1, r1) := takeDigits body
  match r1 with
  | [] =>
    if d1 = [] then none
    else (natOfDigits d1 0).map (fun n => Q.norm (sgn * n) 1)
  | '.' :: r2 =>
    let (d2, r3) := takeDigits r2
    if r3 = [] then
      if d1 = [] ∧ d2 = [] then none
      else (natOfDigits (d1 ++ d2) 0).map
        (fun n => Q.norm (sgn * n) ((10 : Int) ^ d2.length))
    else none
  | _ => none

/-- The `\d*\.?\d*` piece of the complex-literal pattern (greedy). -/
def matchNumPart (cs : List Char) : (List Char × List Char) :=
  let (d1, r1) := takeDigits cs
  match r1 with
  | '.' :: r2 =>
    let (d2, r3) := takeDigits r2
    (d1 ++ '.' :: d2, r3)
  | _ => (d1, r1)

/-- Modelled from the spec: the regular expression
`^(\d*\.?\d*)([\+-]\d*\.?\d*)i$` of `parse_node`, evaluated by the
external `regex` crate; this recognizer returns the two capture groups
(the second including its sign) when the whole string matches. -/
def matchComplexParts (cs : List Char) : Option (List Char × List Char) :=
  let (g1, r1) := matchNumPart cs
  match r1 with
  | c :: r2 =>
    if c = '+' ∨ c = '-' then
      let (g2, r3) := matchNumPart r2
      match r3 with
      | ['i'] => some (g1, c :: g2)
      | _ => none
    else none
  | [] => none

/-- The `Token::NonParen` classification of `parse_node` from `parser.rs`:
`#t`/`#f`, then the complex-literal pattern (an empty or malformed
captured part is a parse error), then i32, then f64, then a bare symbol. -/
def classifyNonParen (val : String) : Except String Node :=
  if val = "#t" then .ok (.Bool true)
  else if val = "#f" then .ok (.Bool false)
  else
    match matchComplexParts val.toList with
    | some (g1, g2) =>
      let realPart := parseF64 (String.mk g1)
      let imPart : Option Q :=
        match g2 with
        | ['-'] => some (i2q (-1))
        | ['+'] => some (i2q 1)
        | _ => parseF64 (String.mk g2)
      match realPart, imPart with
      | some re, some im => .ok (.Complex re im)
      | _, _ => .error ("Error parsing complex constant " ++ val)
    | none =>
      match parseI32 val with
      | some n => .ok (.Int n)
      | none =>
        match parseF64 val with
        | some q => .ok (.Float q)
        | none => .ok (.Symbol val)

mutual
/-- `parse_nodes` from `parser.rs`: collect nodes at one depth until
`parse_node` signals the level is done.  The iterator is modelled by
passing the remaining token list along; the fuel only bounds the loop
(each productive step consumes a token, so `parse` always passes enough). -/
def parse_nodes : Nat → List Token → Nat → Option (Except String (List Node × List Token))
  | 0, _, _ => none
  | fuel+1, ts, depth =>
    match parse_node fuel ts depth with
    | none => none
    | some (.error e) => some (.error e)
    | some (.ok (none, rest)) => some (.ok ([], rest))
    | some (.ok (some n, rest)) =>
      match parse_nodes fuel rest depth with
      | none => none
      | some (.error e) => some (.error e)
      | some (.ok (ns, rest2)) => some (.ok (n :: ns, rest2))

/-- `parse_node` from `parser.rs`: one token dispatch (`Some node`, end of
level `None`, or a `ParseError`). -/
def parse_node : Nat → List Token → Nat → Option (Except String (Option Node × List Token))
  | 0, _, _ => none
  | _+1, [], depth =>
    if depth = 0 then some (.ok (none, []))
    else some (.error "Unexected end of input")
  | fuel+1, t :: rest, depth =>
    match t with
    | .OpenParen =>
      match parse_nodes fuel rest (depth + 1) with
      | none => none
      | some (.error e) => some (.error e)
      | some (.ok (inner, rest2)) => some (.ok (some (.List inner), rest2))
    | .CloseParen =>
      if depth > 0 then some (.ok (none, rest))
      else some (.error "Unexpected close paren")
    | .String s => some (.ok (some (.String s), rest))
    | .NonParen val =>
      match classifyNonParen val with
      | .ok n => some (.ok (some n, rest))
      | .error e => some (.error e)
end

/-- `parse` from `parser.rs` (lines 110-121): more than one top-level node
is a `ParseError`; otherwise the source indexes `val[0]`, which on an
empty node list is an out-of-bounds access — a host panic (`fault`). -/
def parse (tokens : List Token) : POut :=
  match parse_nodes (2 * tokens.length + 2) tokens 0 with
  | none => .fault
  | some (.error e) => .err e
  | some (.ok (val, _)) =>
    if val.length > 1 then .err "Only one outer level permitted"
    else
      match val.get? 0 with
      | some n => .ok n
      | none => .fault

/-- Operator-value shapes that the `List` dispatch of `eval_node` handles
specially (everything else reaches the final `_ => Ok(func_val.clone())`
arm). -/
def dispatchable : Value → Bool
  | .Symbol _ => true
  | .Function _ => true
  | .Lambda _ _ => true
  | _ => false

theorem evalNode_ok_not_wrapper : ∀ (fuel : Nat) (env : Env) (n : Node) (env2 : Env)
    (v : Value) (m : Node),
    evalNode fuel env n = some (env2, .ok v) → v ≠ .NodeWrapper m := by
  intro fuel
  induction fuel with
  | zero => intro env n env2 v m h; simp [evalNode] at h
  | succ k ih =>
    intro env n env2 v m h heq
    subst heq
    rw [evalNode] at h
    split at h
    · exact ih _ _ _ _ m h rfl
    · rename_i other hne
      exact hne _ _ h

/-- C1: `eval_node` never returns a deferred-evaluation marker — every
result it produces is distinct from `Ok(Value::NodeWrapper …)` — and
whenever the single reduction step `eval_node_wrapped` produces
`Ok(NodeWrapper(next_node))`, the trampoline continues by evaluating
`next_node`, looping until a non-wrapper value (or an error) comes out. -/
theorem eval_node_trampolines :
    (∀ (fuel : Nat) (env : Env) (n : Node) (env2 : Env) (r : EvalRes) (m : Node),
      evalNode fuel env n = some (env2, r) → r ≠ .ok (.NodeWrapper m)) ∧
    (∀ (fuel : Nat) (env env2 : Env) (n n2 : Node),
      evalNodeWrapped fuel env n = some (env2, .ok (.NodeWrapper n2)) →
      evalNode (fuel+1) env n = evalNode fuel env2 n2) := by
  constructor
  · intro fuel env n env2 r m h heq
    subst heq
    exact evalNode_ok_not_wrapper fuel env n env2 _ m h rfl
  · intro fuel env env2 n n2 h
    rw [evalNode, h]

/-- Witness for C1: `(if #t 1 2)` — the step returns the wrapped branch,
the trampoline continues with it, and the final result is not a wrapper. -/
theorem eval_node_trampolines_w :
    EvalRes.ok (Value.Int 1) ≠ EvalRes.ok (Value.NodeWrapper (Node.Int 99)) ∧
    evalNode 12 initialEnv
        (Node.List [Node.Symbol "if", Node.Bool true, Node.Int 1, Node.Int 2]) =
      evalNode 11 initialEnv (Node.Int 1) := by
  constructor
  · exact eval_node_trampolines.1 12 initialEnv
      (Node.List [Node.Symbol "if", Node.Bool true, Node.Int 1, Node.Int 2])
      initialEnv (.ok (.Int 1)) (Node.Int 99) rfl
  · exact eval_node_trampolines.2 11 initialEnv initialEnv
      (Node.List [Node.Symbol "if", Node.Bool true, Node.Int 1, Node.Int 2])
      (Node.Int 1) rfl

/-- C2 counterexample: `(pow 2 16)` on two Int operands evaluates to
`Float(65536)` — `pow` breaks the claimed `Int⊗Int→Int` closure (the
source's own `test_pow` expects a Float) — and `(/ -2147483648 -1)`,
whose divisor is nonzero, is the unconditional i32 division-overflow
panic (a host fault), not a `Value::Int` result. -/
theorem pow_int_int_yields_float_cex :
    evalNode 12 initialEnv (.List [.Symbol "pow", .Int 2, .Int 16]) =
      some (initialEnv, .ok (.Float ⟨65536, 1⟩)) ∧
    evalNode 12 initialEnv (.List [.Symbol "/", .Int (-2147483648), .Int (-1)]) =
      some (initialEnv, .fault) :=
  ⟨rfl, rfl⟩

theorem addIntInt :
    ∀ (k : Nat) (env env1 env2 : Env) (a b : Node) (x y : Int),
      evalNode (k+1) env a = some (env1, .ok (.Int x)) →
      evalNode k env1 b = some (env2, .ok (.Int y)) →
      add (k+1+1) env [a, b] = some (env2, .ok (.Int (wrap32 (x + wrap32 (y + 0))))) := by
  intro k env env1 env2 a b x y h1 h2
  simp [add, onOk, h1, h2, boolCoerce, addVals]

theorem subIntInt :
    ∀ (k : Nat) (env env1 env2 : Env) (a b : Node) (x y : Int),
      evalNode k env a = some (env1, .ok (.Int x)) →
      evalNode k env1 b = some (env2, .ok (.Int y)) →
      sub (k+1) env [a, b] = some (env2, .ok (.Int (wrap32 (x - y)))) := by
  intro k env env1 env2 a b x y h1 h2
  simp [sub, onOk, h1, h2, boolCoerce, subVals]

theorem mulIntInt :
    ∀ (k : Nat) (env env1 env2 : Env) (a b : Node) (x y : Int),
      evalNode (k+1) env a = some (env1, .ok (.Int x)) →
      evalNode k env1 b = some (env2, .ok (.Int y)) →
      mul (k+1+1) env [a, b] = some (env2, .ok (.Int (wrap32 (x * wrap32 (y * 1))))) := by
  intro k env env1 env2 a b x y h1 h2
  simp [mul, onOk, h1, h2, boolCoerce, mulVals]

theorem divIntInt :
    ∀ (k : Nat) (env env1 env2 : Env) (a b : Node) (x y : Int),
      y ≠ 0 →
      ¬(x = -2147483648 ∧ y = -1) →
      evalNode k env a = some (env1, .ok (.Int x)) →
      evalNode k env1 b = some (env2, .ok (.Int y)) →
      div (k+1) env [a, b] = some (env2, .ok (.Int (wrap32 (Int.tdiv x y)))) := by
  intro k env env1 env2 a b x y hy hov h1 h2
  have hz : isExactZero (Value.Int y) = false := by simp [isExactZero, hy]
  simp [div, onOk, h1, h2, boolCoerce, divVals, hz, hov]

theorem divMinNegOne :
    ∀ (k : Nat) (env env1 env2 : Env) (a b : Node),
      evalNode k env a = some (env1, .ok (.Int (-2147483648))) →
      evalNode k env1 b = some (env2, .ok (.Int (-1))) →
      div (k+1) env [a, b] = some (env2, .fault) := by
  intro k env env1 env2 a b h1 h2
  have hz : isExactZero (Value.Int (-1)) = false := by decide
  simp [div, onOk, h1, h2, boolCoerce, divVals, hz]

theorem powIntInt :
    ∀ (k : Nat) (env env1 env2 : Env) (a b : Node) (x y : Int),
      evalNode k env a = some (env1, .ok (.Int x)) →
      evalNode k env1 b = some (env2, .ok (.Int y)) →
      pow (k+1) env [a, b] = some (env2, .ok (.Float (powi (i2q x) y))) := by
  intro k env env1 env2 a b x y h1 h2
  simp [pow, onOk, h1, h2, powVals]

/-- C2 (amended): on two evaluated `Int` operands, `+`, `-` and `*` return
an `Int` (i32 wrap-around); `/` with a nonzero divisor returns an `Int`
truncating toward zero (`Int.tdiv`), except `i32::MIN / -1`, which is the
unconditional i32 division-overflow panic (a host fault); `pow`, however,
returns a `Float` carrying the exact power. -/
theorem arith_int_int_closure :
    (∀ (k : Nat) (env env1 env2 : Env) (a b : Node) (x y : Int),
      evalNode (k+1) env a = some (env1, .ok (.Int x)) →
      evalNode k env1 b = some (env2, .ok (.Int y)) →
      add (k+1+1) env [a, b] = some (env2, .ok (.Int (wrap32 (x + wrap32 (y + 0)))))) ∧
    (∀ (k : Nat) (env env1 env2 : Env) (a b : Node) (x y : Int),
      evalNode k env a = some (env1, .ok (.Int x)) →
      evalNode k env1 b = some (env2, .ok (.Int y)) →
      sub (k+1) env [a, b] = some (env2, .ok (.Int (wrap32 (x - y))))) ∧
    (∀ (k : Nat) (env env1 env2 : Env) (a b : Node) (x y : Int),
      evalNode (k+1) env a = some (env1, .ok (.Int x)) →
      evalNode k env1 b = some (env2, .ok (.Int y)) →
      mul (k+1+1) env [a, b] = some (env2, .ok (.Int (wrap32 (x * wrap32 (y * 1)))))) ∧
    (∀ (k : Nat) (env env1 env2 : Env) (a b : Node) (x y : Int),
      y ≠ 0 →
      ¬(x = -2147483648 ∧ y = -1) →
      evalNode k env a = some (env1, .ok (.Int x)) →
      evalNode k env1 b = some (env2, .ok (.Int y)) →
      div (k+1) env [a, b] = some (env2, .ok (.Int (wrap32 (Int.tdiv x y))))) ∧
    (∀ (k : Nat) (env env1 env2 : Env) (a b : Node),
      evalNode k env a = some (env1, .ok (.Int (-2147483648))) →
      evalNode k env1 b = some (env2, .ok (.Int (-1))) →
      div (k+1) env [a, b] = some (env2, .fault)) ∧
    (∀ (k : Nat) (env env1 env2 : Env) (a b : Node) (x y : Int),
      evalNode k env a = some (env1, .ok (.Int x)) →
      evalNode k env1 b = some (env2, .ok (.Int y)) →
      pow (k+1) env [a, b] = some (env2, .ok (.Float (powi (i2q x) y)))) :=
  ⟨addIntInt, subIntInt, mulIntInt, divIntInt, divMinNegOne, powIntInt⟩

/-- Witness for C2 (amended) on concrete operands. -/
theorem arith_int_int_closure_w :
    add 4 initialEnv [Node.Int 3, Node.Int 4] =
      some (initialEnv, .ok (.Int (wrap32 (3 + wrap32 (4 + 0))))) ∧
    sub 3 initialEnv [Node.Int 3, Node.Int 4] =
      some (initialEnv, .ok (.Int (wrap32 (3 - 4)))) ∧
    mul 4 initialEnv [Node.Int 3, Node.Int 4] =
      some (initialEnv, .ok (.Int (wrap32 (3 * wrap32 (4 * 1))))) ∧
    div 3 initialEnv [Node.Int 7, Node.Int (-2)] =
      some (initialEnv, .ok (.Int (wrap32 (Int.tdiv 7 (-2))))) ∧
    div 3 initialEnv [Node.Int (-2147483648), Node.Int (-1)] =
      some (initialEnv, .fault) ∧
    pow 3 initialEnv [Node.Int 2, Node.Int 16] =
      some (initialEnv, .ok (.Float (powi (i2q 2) 16))) :=
  ⟨arith_int_int_closure.1 2 initialEnv initialEnv initialEnv _ _ 3 4 rfl rfl,
   arith_int_int_closure.2.1 2 initialEnv initialEnv initialEnv _ _ 3 4 rfl rfl,
   arith_int_int_closure.2.2.1 2 initialEnv initialEnv initialEnv _ _ 3 4 rfl rfl,
   arith_int_int_closure.2.2.2.1 2 initialEnv initialEnv initialEnv _ _ 7 (-2)
     (by decide) (by decide) rfl rfl,
   arith_int_int_closure.2.2.2.2.1 2 initialEnv initialEnv initialEnv _ _ rfl rfl,
   arith_int_int_closure.2.2.2.2.2 2 initialEnv initialEnv initialEnv _ _ 2 16 rfl rfl⟩

/-- C3: the numeric-promotion examples — `(+ 1 2.0)` is `Float 3`,
`(+ #t 1)` is `Int 2` (Bool coerces to 1), and `(* 2 3 4)` is `Int 24`. -/
theorem numeric_promotion_examples :
    evalNode 30 initialEnv (.List [.Symbol "+", .Int 1, .Float ⟨2, 1⟩]) =
      some (initialEnv, .ok (.Float ⟨3, 1⟩)) ∧
    evalNode 30 initialEnv (.List [.Symbol "+", .Bool true, .Int 1]) =
      some (initialEnv, .ok (.Int 2)) ∧
    evalNode 30 initialEnv (.List [.Symbol "*", .Int 2, .Int 3, .Int 4]) =
      some (initialEnv, .ok (.Int 24)) :=
  ⟨rfl, rfl, rfl⟩

/-- C4: dividing any evaluated value by an exact-zero divisor (`Int 0` or
the float zero) yields the `Invalid division by zero` EvalError — never an
infinity or NaN value — in both the binary and the N-argument fold forms
of `/`. -/
theorem div_exact_zero_errors :
    (∀ (k : Nat) (env env1 env2 : Env) (a b : Node) (vx vy : Value),
      evalNode k env a = some (env1, .ok vx) →
      evalNode k env1 b = some (env2, .ok vy) →
      (vy = .Int 0 ∨ vy = .Float qzero) →
      div (k+1) env [a, b] = some (env2, .err "Invalid division by zero")) ∧
    (∀ (k : Nat) (env env1 env2 : Env) (a b c : Node) (cs : List Node) (vx vy : Value),
      evalNode k env a = some (env1, .ok vx) →
      evalNode k env1 b = some (env2, .ok vy) →
      (vy = .Int 0 ∨ vy = .Float qzero) →
      div (k+1) env (a :: b :: c :: cs) = some (env2, .err "Invalid division by zero")) := by
  constructor
  · intro k env env1 env2 a b vx vy h1 h2 hz
    rcases hz with rfl | rfl <;>
      simp [div, onOk, h1, h2, boolCoerce, divVals, isExactZero, qzero]
  · intro k env env1 env2 a b c cs vx vy h1 h2 hz
    rcases hz with rfl | rfl <;>
      simp [div, onOk, h1, h2, boolCoerce, divStep, isExactZero, qzero]

/-- Witness for C4: `(/ 1 0)`. -/
theorem div_exact_zero_errors_w :
    div 3 initialEnv [Node.Int 1, Node.Int 0] =
      some (initialEnv, .err "Invalid division by zero") :=
  div_exact_zero_errors.1 2 initialEnv initialEnv initialEnv _ _ (.Int 1) (.Int 0)
    rfl rfl (Or.inl rfl)

/-- C5: calling a lambda of N parameters with M ≠ N argument nodes yields
an EvalError whose message names the callee (`nodes[0]`), the expected
count N and the actual count M; the conclusion holds for every body, so
the body is never evaluated. -/
theorem lambda_arity_error :
    ∀ (fuel : Nat) (env : Env) (params : List Node) (body : Node) (n0 : Node)
      (args : List Node),
      args.length ≠ params.length →
      evalLambda (fuel+1) env params body (n0 :: args) =
        some (env, .err (Node.toStr n0 ++ " expects " ++ toString params.length ++
                         " params, got " ++ toString args.length)) := by
  intro fuel env params body n0 args h
  simp [evalLambda, h]

/-- Witness for C5: a one-parameter lambda called with two arguments. -/
theorem lambda_arity_error_w :
    evalLambda 1 initialEnv [Node.Symbol "x"] (Node.Int 1)
      [Node.Symbol "f", Node.Int 1, Node.Int 2] =
      some (initialEnv, .err "f expects 1 params, got 2") :=
  lambda_arity_error 0 initialEnv [Node.Symbol "x"] (Node.Int 1) (Node.Symbol "f")
    [Node.Int 1, Node.Int 2] (by decide)

/-- C6: `and`/`or` short-circuit — a head evaluating to `Bool false`
(resp. `Bool true`) is returned at once, the remaining argument nodes
being arbitrary (hence never evaluated); concretely,
`(and #f (car (quote ())))` yields `Bool false` although its second
operand alone evaluates to a host fault. -/
theorem and_or_short_circuit :
    (∀ (k : Nat) (env env1 : Env) (x0 y : Node) (ys : List Node),
      evalNode k env x0 = some (env1, .ok (.Bool false)) →
      and (k+1) env (x0 :: y :: ys) = some (env1, .ok (.Bool false))) ∧
    (∀ (k : Nat) (env env1 : Env) (x0 y : Node) (ys : List Node),
      evalNode k env x0 = some (env1, .ok (.Bool true)) →
      or (k+1) env (x0 :: y :: ys) = some (env1, .ok (.Bool true))) ∧
    evalNode 30 initialEnv
      (.List [.Symbol "and", .Bool false,
        .List [.Symbol "car", .List [.Symbol "quote", .List []]]]) =
      some (initialEnv, .ok (.Bool false)) ∧
    evalNode 30 initialEnv (.List [.Symbol "car", .List [.Symbol "quote", .List []]]) =
      some (initialEnv, .fault) := by
  refine ⟨?_, ?_, rfl, rfl⟩
  · intro k env env1 x0 y ys h
    simp [and, h]
  · intro k env env1 x0 y ys h
    simp [or, h]

/-- Witness for C6 with an arbitrary unevaluated second operand. -/
theorem and_or_short_circuit_w :
    and 3 initialEnv [Node.Bool false, Node.Symbol "whatever"] =
      some (initialEnv, .ok (.Bool false)) ∧
    or 3 initialEnv [Node.Bool true, Node.Symbol "whatever"] =
      some (initialEnv, .ok (.Bool true)) :=
  ⟨and_or_short_circuit.1 2 initialEnv initialEnv _ _ [] rfl,
   and_or_short_circuit.2.1 2 initialEnv initialEnv _ _ [] rfl⟩

/-- C7: a symbol bound in no scope of the environment chain evaluates to
`Ok(Value::Symbol name)` rather than an error; an arithmetic (`+`) or
comparison (`>`) primitive that then receives such a Symbol operand
returns an `Unknown symbol` EvalError naming it. -/
theorem unresolved_symbol_deferred :
    (∀ (k : Nat) (env : Env) (name : String),
      Env.get env name = none →
      evalNode (k+1+1) env (.Symbol name) = some (env, .ok (.Symbol name))) ∧
    (∀ (k : Nat) (env env1 env2 : Env) (a b : Node) (s : String) (m : Int),
      evalNode (k+1) env a = some (env1, .ok (.Symbol s)) →
      evalNode k env1 b = some (env2, .ok (.Int m)) →
      add (k+1+1) env [a, b] = some (env2, .err ("Unknown symbol " ++ s))) ∧
    (∀ (k : Nat) (env env1 env2 : Env) (a b : Node) (s : String) (m : Int),
      evalNode k env a = some (env1, .ok (.Symbol s)) →
      evalNode k env1 b = some (env2, .ok (.Int m)) →
      gt (k+1) env [a, b] = some (env2, .err ("Unknown symbol " ++ s))) := by
  refine ⟨?_, ?_, ?_⟩
  · intro k env name h
    simp [evalNode, evalNodeWrapped, h]
  · intro k env env1 env2 a b s m h1 h2
    simp [add, onOk, h1, h2, boolCoerce, addVals]
  · intro k env env1 env2 a b s m h1 h2
    simp [gt, onOk, h1, h2, gtVals]

/-- Witness for C7: the name `bogus` is unbound in the root environment. -/
theorem unresolved_symbol_deferred_w :
    evalNode 3 initialEnv (.Symbol "bogus") = some (initialEnv, .ok (.Symbol "bogus")) ∧
    add 4 initialEnv [Node.Symbol "bogus", Node.Int 5] =
      some (initialEnv, .err ("Unknown symbol " ++ "bogus")) ∧
    gt 3 initialEnv [Node.Symbol "bogus", Node.Int 5] =
      some (initialEnv, .err ("Unknown symbol " ++ "bogus")) :=
  ⟨unresolved_symbol_deferred.1 1 initialEnv "bogus" rfl,
   unresolved_symbol_deferred.2.1 2 initialEnv initialEnv initialEnv _ _ "bogus" 5 rfl rfl,
   unresolved_symbol_deferred.2.2 2 initialEnv initialEnv initialEnv _ _ "bogus" 5 rfl rfl⟩

/-- C8 counterexample: evaluating `(1 2)` — the first child evaluates to
`Int 1`, neither Function nor Lambda nor Symbol — returns `Ok(Int 1)`,
not an "invalid function call" EvalError. -/
theorem non_callable_operator_cex :
    evalNode 8 initialEnv (.List [.Int 1, .Int 2]) = some (initialEnv, .ok (.Int 1)) := rfl

/-- C8 (amended): a `List` whose first child evaluates to a value that is
neither a `Function`, nor a `Lambda`, nor a `Symbol` evaluates to `Ok` of
that operator value itself, the remaining children being ignored — the
snapshot's dispatch ends in `_ => Ok(func_val.clone())` instead of an
"invalid function call" error. -/
theorem non_callable_operator_returns_value :
    ∀ (k : Nat) (env env1 : Env) (c : Node) (rest : List Node) (v : Value),
      evalNode k env c = some (env1, .ok v) →
      dispatchable v = false →
      evalNode (k+1+1) env (.List (c :: rest)) = some (env1, .ok v) := by
  intro k env env1 c rest v h hv
  have hnw := evalNode_ok_not_wrapper k env c env1 v
  rcases v with n | q | ⟨re, im⟩ | b | s | s | s | vs | nm | ⟨ps, bd⟩ | m | _
  · simp [evalNode, evalNodeWrapped, onOk, h]
  · simp [evalNode, evalNodeWrapped, onOk, h]
  · simp [evalNode, evalNodeWrapped, onOk, h]
  · simp [evalNode, evalNodeWrapped, onOk, h]
  · simp [dispatchable] at hv
  · simp [evalNode, evalNodeWrapped, onOk, h]
  · simp [evalNode, evalNodeWrapped, onOk, h]
  · simp [evalNode, evalNodeWrapped, onOk, h]
  · simp [dispatchable] at hv
  · simp [dispatchable] at hv
  · exact absurd rfl (hnw m h)
  · simp [evalNode, evalNodeWrapped, onOk, h]

/-- Witness for C8 (amended): `(1 2)` with the hypotheses discharged. -/
theorem non_callable_operator_returns_value_w :
    evalNode 4 initialEnv (.List [Node.Int 1, Node.Int 2]) =
      some (initialEnv, .ok (.Int 1)) :=
  non_callable_operator_returns_value 2 initialEnv initialEnv (Node.Int 1)
    [Node.Int 2] (.Int 1) rfl rfl

/-- C9: `car`/`cdr` on an evaluated empty list are host-level faults (the
out-of-bounds `vals[0]` / `remove(0)`), not catchable EvalErrors; on a
non-empty list `car` yields the first element and `cdr` the list without
it. -/
theorem car_cdr_empty_fault :
    (∀ (k : Nat) (env env1 : Env) (x : Node),
      evalNode k env x = some (env1, .ok (.List [])) →
      car (k+1) env [x] = some (env1, .fault)) ∧
    (∀ (k : Nat) (env env1 : Env) (x : Node),
      evalNode k env x = some (env1, .ok (.List [])) →
      cdr (k+1) env [x] = some (env1, .fault)) ∧
    (∀ (k : Nat) (env env1 : Env) (x : Node) (v : Value) (vs : List Value),
      evalNode k env x = some (env1, .ok (.List (v :: vs))) →
      car (k+1) env [x] = some (env1, .ok v)) ∧
    (∀ (k : Nat) (env env1 : Env) (x : Node) (v : Value) (vs : List Value),
      evalNode k env x = some (env1, .ok (.List (v :: vs))) →
      cdr (k+1) env [x] = some (env1, .ok (.List vs))) := by
  refine ⟨?_, ?_, ?_, ?_⟩
  · intro k env env1 x h; simp [car, onOk, h]
  · intro k env env1 x h; simp [cdr, onOk, h]
  · intro k env env1 x v vs h; simp [car, onOk, h]
  · intro k env env1 x v vs h; simp [cdr, onOk, h]

/-- Witness for C9 on concrete empty and non-empty lists. -/
theorem car_cdr_empty_fault_w :
    car 3 initialEnv [Node.ValueWrapper (.List [])] = some (initialEnv, .fault) ∧
    cdr 3 initialEnv [Node.ValueWrapper (.List [])] = some (initialEnv, .fault) ∧
    car 3 initialEnv [Node.ValueWrapper (.List [.Int 9, .Int 8])] =
      some (initialEnv, .ok (.Int 9)) ∧
    cdr 3 initialEnv [Node.ValueWrapper (.List [.Int 9, .Int 8])] =
      some (initialEnv, .ok (.List [.Int 8])) :=
  ⟨car_cdr_empty_fault.1 2 initialEnv initialEnv _ rfl,
   car_cdr_empty_fault.2.1 2 initialEnv initialEnv _ rfl,
   car_cdr_empty_fault.2.2.1 2 initialEnv initialEnv _ _ _ rfl,
   car_cdr_empty_fault.2.2.2 2 initialEnv initialEnv _ _ _ rfl⟩

/-- C10: tokenizing an empty or whitespace-only source yields no tokens;
on an empty token sequence `parse_nodes` yields an empty node list (whose
length is not greater than 1), and `parse` then hits the out-of-bounds
`val[0]` — a host fault, neither `Ok` nor a `ParseError`. -/
theorem parse_empty_tokens_fault :
    tokenize "" = [] ∧ tokenize " \n\t " = [] ∧
    parse_nodes 2 [] 0 = some (.ok ([], [])) ∧
    parse [] = POut.fault :=
  ⟨rfl, rfl, rfl, rfl⟩

end RScheme
